import Mathlib

/-!
Verification development for the MissiveAttachmentDownloader repository.

The Python sources are shallowly embedded as executable Lean definitions:
  * `src/attachment_processor.py` — path sanitization, collision-safe naming,
    signed-URL expiry detection, download with refresh-on-403, the `process`
    pipeline (filesystem modelled as the list of relative paths present).
  * `src/queue/spool_queue.py` — the spool-directory queue (directory modelled
    as a list of (stem, suffix, mtime) files plus the in-memory instance state).
  * `src/worker.py` — one iteration of the worker batch loop.
  * `src/db.py` — the PostgREST-backed attachment state machine (table modelled
    as a list of records, PATCH-with-filters as a conditional map).
  * `src/app.py` — the startup/operation order of `Application.run`.

Machine integers do not occur; Python ints are `Nat`/`Int`, timestamps are
`Nat` seconds (`Int` where a difference may be negative), file contents are
opaque `String`s.
-/

namespace MAD

/-! ## Generic string helpers shared by the embeddings -/

/-- Python `str.strip(chars)` on the left: drop leading characters in `bad`. -/
def stripLeftChars (bad : List Char) (cs : List Char) : List Char :=
  cs.dropWhile (fun c => bad.contains c)

/-- Python `str.strip(chars)`: drop leading and trailing characters in `bad`. -/
def stripChars (bad : List Char) (cs : List Char) : List Char :=
  ((stripLeftChars bad cs).reverse.dropWhile (fun c => bad.contains c)).reverse

/-- Python `str.rstrip(chars)`: drop trailing characters in `bad`. -/
def stripRightChars (bad : List Char) (cs : List Char) : List Char :=
  (cs.reverse.dropWhile (fun c => bad.contains c)).reverse

/-- `re.sub(r"[X]+", rep, ·)` for a character class `inRun`: every maximal run
of characters satisfying `inRun` becomes the single character `rep`.  (In all
uses below `rep` itself satisfies `inRun`, which the right fold relies on.) -/
def collapseRuns (inRun : Char → Bool) (rep : Char) (cs : List Char) : List Char :=
  cs.foldr
    (fun c acc =>
      if inRun c then
        match acc with
        | d :: _ => if d = rep then acc else rep :: acc
        | [] => rep :: acc
      else c :: acc)
    []

/-- ASCII letters and digits, the `[A-Za-z0-9]` part of the allow-lists. -/
def isAlnum (c : Char) : Bool :=
  (('A' ≤ c && c ≤ 'Z') || ('a' ≤ c && c ≤ 'z') || ('0' ≤ c && c ≤ '9'))

/-- The character class `[<>:"/\\|?*\x00-\x1f]` used by the folder/subject
sanitizers. -/
def isFsUnsafe (c : Char) : Bool :=
  c == '<' || c == '>' || c == ':' || c == '"' || c == '/' || c == '\\' ||
  c == '|' || c == '?' || c == '*' || decide (c.toNat ≤ 0x1f)

/-- ASCII whitespace, the `\s` class as it applies to the strings at hand. -/
def isPySpace (c : Char) : Bool :=
  c == ' ' || c == '\t' || c == '\n' || c == '\r' ||
  c == Char.ofNat 11 || c == Char.ofNat 12

/-! ## AttachmentProcessor: sanitizers (`attachment_processor.py`) -/

/-- `AttachmentProcessor._sanitize_filename`: spaces become dashes, characters
outside `[A-Za-z0-9._-]` become underscores, runs of `[-_]` collapse to a
single dash, the result is stripped of `-`/`_`, truncated to 100 characters,
and defaults to `"attachment"` when empty. -/
def sanitize_filename (name : String) : String :=
  let n1 := name.toList.map (fun c => if c = ' ' then '-' else c)
  let n2 := n1.map (fun c =>
    if isAlnum c || c == '.' || c == '_' || c == '-' then c else '_')
  let n3 := collapseRuns (fun c => c == '-' || c == '_') '-' n2
  let n4 := stripChars ['-', '_'] n3
  if n4.isEmpty then "attachment" else String.mk (n4.take 100)

/-- `AttachmentProcessor._sanitize_subject`: unsafe characters become
underscores, runs of whitespace/underscores collapse to one underscore, the
result is stripped of `' ._'`, truncated to `maxLen` (re-stripping on the
right after truncation), defaulting to `"no-subject"`. -/
def sanitize_subject (maxLen : Nat) (subject : String) : String :=
  let s1 := subject.toList.map (fun c => if isFsUnsafe c then '_' else c)
  let s2 := collapseRuns (fun c => isPySpace c || c == '_') '_' s1
  let s3 := stripChars [' ', '.', '_'] s2
  let s4 := if s3.length > maxLen then stripRightChars [' ', '.', '_'] (s3.take maxLen) else s3
  if s4.isEmpty then "no-subject" else String.mk s4

/-- `AttachmentProcessor._sanitize_folder`: unsafe characters become
underscores, the result is stripped of `' .'` and truncated to 200
characters, defaulting to `"Unknown"`. -/
def sanitize_folder (name : String) : String :=
  let s1 := name.toList.map (fun c => if isFsUnsafe c then '_' else c)
  let s2 := stripChars [' ', '.'] s1
  if s2.isEmpty then "Unknown" else String.mk (s2.take 200)

/-- The sender sanitization inside `_build_email_folder`:
`re.sub(r"[^A-Za-z0-9@._-]", "_", sender_email)[:50]`. -/
def sanitize_sender (s : String) : String :=
  String.mk ((s.toList.map (fun c =>
    if isAlnum c || c == '@' || c == '.' || c == '_' || c == '-' then c else '_')).take 50)

/-! ## AttachmentProcessor: delivered-at date formatting -/

/-- Numeric value of a digit list, most significant first. -/
def natOfDigits (cs : List Char) : Nat :=
  cs.foldl (fun acc c => acc * 10 + (c.toNat - '0'.toNat)) 0

/-- Gregorian leap year. -/
def isLeap (y : Nat) : Bool :=
  (y % 4 == 0 && y % 100 != 0) || y % 400 == 0

/-- Days in a month of the proleptic Gregorian calendar. -/
def daysInMonth (y m : Nat) : Nat :=
  if m == 2 then (if isLeap y then 29 else 28)
  else if m == 4 || m == 6 || m == 9 || m == 11 then 30
  else 31

/-- Read exactly two digits from the front of a character list. -/
def twoDigits : List Char → Option (Nat × List Char)
  | a :: b :: rest => if a.isDigit && b.isDigit then some (natOfDigits [a, b], rest) else none
  | _ => none

/-- Validity of a `HH:MM[:SS[.fff[fff]]]` time suffix followed by an optional
`±HH:MM` offset, the time shapes `datetime.fromisoformat` accepts in the
timestamps this system sees. -/
def validTimePart (cs : List Char) : Bool :=
  match twoDigits cs with
  | none => false
  | some (hh, rest) =>
    if hh ≥ 24 then false
    else match rest with
      | ':' :: rest2 =>
        match twoDigits rest2 with
        | none => false
        | some (mm, rest3) =>
          if mm ≥ 60 then false
          else
            let afterSec :=
              match rest3 with
              | ':' :: rest4 =>
                match twoDigits rest4 with
                | none => none
                | some (ss, rest5) =>
                  if ss ≥ 60 then none
                  else match rest5 with
                    | '.' :: rest6 =>
                      let frac := rest6.takeWhile Char.isDigit
                      if frac.length == 3 || frac.length == 6 then
                        some (rest6.drop frac.length)
                      else none
                    | other => some other
              | other => some other
            match afterSec with
            | none => false
            | some [] => true
            | some (sgn :: off) =>
              (sgn == '+' || sgn == '-') &&
              (match twoDigits off with
               | none => false
               | some (oh, ':' :: offRest) =>
                 oh < 24 &&
                 (match twoDigits offRest with
                  | some (om, []) => om < 60
                  | _ => false)
               | some _ => false)
      | _ => false

/-- Modelled from `datetime.fromisoformat(s).strftime("%Y%m%d")` restricted to
the `YYYY-MM-DD[sep HH:MM...]` shapes that reach it in this program: returns
the `yyyymmdd` digits when the string parses, `none` when parsing raises. -/
def format_yyyymmdd (s : String) : Option String :=
  let cs := s.toList
  match cs with
  | y1 :: y2 :: y3 :: y4 :: '-' :: m1 :: m2 :: '-' :: d1 :: d2 :: rest =>
    if y1.isDigit && y2.isDigit && y3.isDigit && y4.isDigit &&
       m1.isDigit && m2.isDigit && d1.isDigit && d2.isDigit then
      let y := natOfDigits [y1, y2, y3, y4]
      let m := natOfDigits [m1, m2]
      let d := natOfDigits [d1, d2]
      if 1 ≤ m && m ≤ 12 && 1 ≤ d && d ≤ daysInMonth y m then
        match rest with
        | [] => some (String.mk [y1, y2, y3, y4, m1, m2, d1, d2])
        | sep :: timeCs =>
          if (sep == 'T' || sep == ' ') && validTimePart timeCs then
            some (String.mk [y1, y2, y3, y4, m1, m2, d1, d2])
          else none
      else none
    else none
  | _ => none

/-- Python truthiness-based defaulting `attachment.get(k) or default`:
`none` and the empty string both fall back to the default. -/
def pyOrDefault (o : Option String) (d : String) : String :=
  match o with
  | some s => if s = "" then d else s
  | none => d

/-- `str.replace("Z", "+00:00")`: every `Z` becomes the UTC offset (the
pattern being a single character, a character-level flat map). -/
def replaceZwithOffset (s : String) : String :=
  String.mk (s.toList.flatMap (fun c =>
    if c = 'Z' then ['+', '0', '0', ':', '0', '0'] else [c]))

/-- `AttachmentProcessor._build_email_folder`: `{yyyymmdd}-{sender}-{subject}`,
with `"00000000"` when `delivered_at` is missing, falsy, or unparsable (the
code first rewrites `Z` to `+00:00`). -/
def build_email_folder (maxSubjectLen : Nat) (delivered_at : Option String)
    (sender_email subject : String) : String :=
  let date_str :=
    match delivered_at with
    | some d =>
      if d = "" then "00000000"
      else match format_yyyymmdd (replaceZwithOffset d) with
        | some ds => ds
        | none => "00000000"
    | none => "00000000"
  date_str ++ "-" ++ sanitize_sender sender_email ++ "-" ++ sanitize_subject maxSubjectLen subject

/-! ## AttachmentProcessor: collision-safe filename generation -/

/-- `original_filename.rsplit(".", 1)` guarded by `"." in original_filename`:
returns `(name, ext)` with the extension lower-cased, `ext = ""` when there is
no dot. -/
def rsplitDot (s : String) : String × String :=
  let cs := s.toList
  if cs.contains '.' then
    let revCs := cs.reverse
    let extRev := revCs.takeWhile (fun c => c != '.')
    let nameRev := (revCs.dropWhile (fun c => c != '.')).drop 1
    (String.mk nameRev.reverse, String.mk ((extRev.reverse).map Char.toLower))
  else (s, "")

/-- The `f"{name}_{idx}.{ext}"` / `f"{name}_{idx}"` candidate of the collision
loop. -/
def indexed_name (name ext : String) (idx : Nat) : String :=
  if ext ≠ "" then name ++ "_" ++ toString idx ++ "." ++ ext
  else name ++ "_" ++ toString idx

/-- The `while True` probe of `_generate_unique_filename`, bounded by fuel.
The Python loop stops at the first free index; callers pass enough fuel that
the bound is never the reason the probe stops (one more probe than there are
existing files always suffices, the candidate names being pairwise distinct). -/
def probe_index (existsF : String → Bool) (name ext : String) : Nat → Nat → String
  | 0, idx => indexed_name name ext idx
  | fuel + 1, idx =>
    if existsF (indexed_name name ext idx) then
      probe_index existsF name ext fuel (idx + 1)
    else indexed_name name ext idx

/-- `AttachmentProcessor._generate_unique_filename`: split off and lower-case
the extension, sanitize the stem, return the base name when no file of that
name exists, otherwise probe `name_1`, `name_2`, … for the first free name.
`existsF` is `(folder_path / candidate).exists()`; `fuel` bounds the probe. -/
def generate_unique_filename (existsF : String → Bool) (fuel : Nat)
    (original_filename : String) : String :=
  let pr := rsplitDot original_filename
  let name := sanitize_filename pr.1
  let ext := pr.2
  let base := if ext ≠ "" then name ++ "." ++ ext else name
  if !(existsF base) then base
  else probe_index existsF name ext fuel 1

/-! ## AttachmentProcessor: signed-URL expiry (`_is_url_expired`) -/

/-- Value of one hexadecimal digit (code points 0-9, a-f, A-F). -/
def hexVal (c : Char) : Option Nat :=
  let n := c.toNat
  if 48 ≤ n ∧ n ≤ 57 then some (n - 48)
  else if 97 ≤ n ∧ n ≤ 102 then some (n - 87)
  else if 65 ≤ n ∧ n ≤ 70 then some (n - 55)
  else none

/-- `urllib.parse.unquote` on the characters of a field: `%xx` escapes decode
to the coded character, malformed escapes pass through unchanged.  (Multi-byte
UTF-8 escape sequences are out of scope; the ids and timestamps at hand are
ASCII.) -/
def pyUnquoteChars : List Char → List Char
  | '%' :: a :: b :: rest =>
    match hexVal a, hexVal b with
    | some x, some y => Char.ofNat (16 * x + y) :: pyUnquoteChars rest
    | _, _ => '%' :: pyUnquoteChars (a :: b :: rest)
  | c :: rest => c :: pyUnquoteChars rest
  | [] => []

/-- `urllib.parse.unquote_plus`: `+` becomes a space, then `%xx` escapes
decode. -/
def pyUnquotePlus (s : String) : String :=
  String.mk (pyUnquoteChars (s.toList.map (fun c => if c = '+' then ' ' else c)))

/-- `str.split(sep)` for a one-character separator, keeping empty groups
(so `"a&&b"` yields `["a", "", "b"]` and the empty string yields `[""]`). -/
def splitOnChar (sep : Char) : List Char → List (List Char)
  | [] => [[]]
  | c :: rest =>
    let r := splitOnChar sep rest
    if c = sep then [] :: r
    else
      match r with
      | [] => [[c]]
      | g :: gs => (c :: g) :: gs

/-- Rejoin groups with a one-character separator (the inverse of
`splitOnChar`, used where Python rejoins the remainder of a bounded split). -/
def joinSep (sep : Char) : List (List Char) → List Char
  | [] => []
  | [g] => g
  | g :: gs => g ++ sep :: joinSep sep gs

/-- The query component `urlparse(url).query`: the fragment is split off at
the first `#`, the query is everything after the first `?` of what remains. -/
def queryOf (url : String) : String :=
  let beforeFrag := (splitOnChar '#' url.toList).headD []
  match splitOnChar '?' beforeFrag with
  | [] => ""
  | [_] => ""
  | _ :: rest => String.mk (joinSep '?' rest)

/-- `urllib.parse.parse_qsl` with default options: fields split on `&`; empty
fields, fields without `=`, and fields with an empty value are dropped; names
and values are unquoted. -/
def parse_qsl (q : String) : List (String × String) :=
  (splitOnChar '&' q.toList).foldr
    (fun field acc =>
      if field.isEmpty then acc
      else
        match splitOnChar '=' field with
        | [] => acc
        | [_] => acc
        | k :: vs =>
          let v := joinSep '=' vs
          if v.isEmpty then acc
          else (pyUnquotePlus (String.mk k), pyUnquotePlus (String.mk v)) :: acc)
    []

/-- `parse_qs(parsed.query).get("Expires", [None])[0]`: the first `Expires`
value of the query string, when present. -/
def getExpiresParam (url : String) : Option String :=
  ((parse_qsl (queryOf url)).find? (fun p => p.1 == "Expires")).map (fun p => p.2)

/-- Whether a character list is a valid Python integer digit sequence with
single underscores only between digits. -/
def underscoreDigits : List Char → Bool
  | [] => true
  | [c] => c.isDigit
  | c :: d :: rest => (c.isDigit || (c == '_' && d.isDigit)) && underscoreDigits (d :: rest)

/-- Digit-sequence validity including the no-leading-underscore rule. -/
def pyIntCore (cs : List Char) : Bool :=
  match cs with
  | [] => false
  | c :: _ => c.isDigit && underscoreDigits cs

/-- Python `int(s)`: surrounding whitespace stripped, one optional sign,
digits with optional single interior underscores; `none` models the
`ValueError` that `_is_url_expired` catches. -/
def pyInt (s : String) : Option Int :=
  let cs := stripChars [' ', '\t', '\n', '\r', Char.ofNat 11, Char.ofNat 12] s.toList
  match cs with
  | '+' :: rest =>
    if pyIntCore rest then some ((natOfDigits (rest.filter Char.isDigit) : Nat) : Int) else none
  | '-' :: rest =>
    if pyIntCore rest then some (-((natOfDigits (rest.filter Char.isDigit) : Nat) : Int)) else none
  | _ =>
    if pyIntCore cs then some ((natOfDigits (cs.filter Char.isDigit) : Nat) : Int) else none

/-- `AttachmentProcessor._is_url_expired`: true when the query carries a
parsable `Expires` timestamp within `bufferSeconds` of `nowTs`; a missing or
unparsable parameter yields `false` (the `except` path). -/
def is_url_expired (nowTs : Int) (url : String) (bufferSeconds : Int) : Bool :=
  match getExpiresParam url with
  | none => false
  | some e =>
    match pyInt e with
    | none => false
    | some ts => decide (nowTs ≥ ts - bufferSeconds)

/-! ## AttachmentProcessor: download with refresh-on-403 -/

/-- Outcome of one `requests.get(url)` + `raise_for_status()`: content, an
`HTTPError` with its status code, or a non-HTTP request failure. -/
inductive DlOutcome
  | ok (content : String)
  | httpError (status : Nat)
  | netError
deriving DecidableEq, Repr

/-- Errors a processing attempt can surface to its caller. -/
inductive ProcError
  | http (status : Nat)
  | net
  | refreshFailed
deriving DecidableEq, Repr

/-- `AttachmentProcessor._refresh_url`: the fresh URL from the Missive API, or
the raised `Exception` when the API yields none.  (The `db.update_url` side
write does not feed back into any claim.) -/
def refresh_url (freshUrl : Option String) : Except ProcError String :=
  match freshUrl with
  | none => Except.error ProcError.refreshFailed
  | some u => Except.ok u

instance {α β : Type} [DecidableEq α] [DecidableEq β] : DecidableEq (Except α β) := fun x y =>
  match x, y with
  | Except.error a, Except.error b =>
    if h : a = b then Decidable.isTrue (congrArg Except.error h)
    else Decidable.isFalse (fun hh => h (Except.error.inj hh))
  | Except.ok a, Except.ok b =>
    if h : a = b then Decidable.isTrue (congrArg Except.ok h)
    else Decidable.isFalse (fun hh => h (Except.ok.inj hh))
  | Except.error _, Except.ok _ => Decidable.isFalse (fun hh => Except.noConfusion hh)
  | Except.ok _, Except.error _ => Decidable.isFalse (fun hh => Except.noConfusion hh)

/-- Result of `_download_with_refresh` together with the number of download
and URL-refresh network calls it performed. -/
structure DlTrace where
  result : Except ProcError (String × Bool)
  downloadCalls : Nat
  refreshCalls : Nat
deriving DecidableEq, Repr

/-- `AttachmentProcessor._download_with_refresh`: download once; on an
`HTTPError` whose status is 403, refresh the URL exactly once and download
exactly once more, any failure of which propagates; any other error
propagates without a refresh. -/
def download_with_refresh (dl : String → DlOutcome) (freshUrl : Option String)
    (url : String) : DlTrace :=
  match dl url with
  | DlOutcome.ok c => ⟨Except.ok (c, false), 1, 0⟩
  | DlOutcome.httpError s =>
    if s == 403 then
      match freshUrl with
      | none => ⟨Except.error ProcError.refreshFailed, 1, 1⟩
      | some fu =>
        match dl fu with
        | DlOutcome.ok c => ⟨Except.ok (c, true), 2, 1⟩
        | DlOutcome.httpError s2 => ⟨Except.error (ProcError.http s2), 2, 1⟩
        | DlOutcome.netError => ⟨Except.error ProcError.net, 2, 1⟩
    else ⟨Except.error (ProcError.http s), 1, 0⟩
  | DlOutcome.netError => ⟨Except.error ProcError.net, 1, 0⟩

/-! ## AttachmentProcessor.process -/

/-- The fields `process` reads from the attachment row.  Optional fields model
dictionary keys that may be absent or null. -/
structure Attachment where
  missive_attachment_id : String
  missive_message_id : String
  original_filename : String
  original_url : String
  project_name : Option String
  delivered_at : Option String
  sender_email : Option String
  email_subject : Option String
deriving DecidableEq, Repr

/-- Result of one `process` call over a filesystem modelled as the list of
relative paths present under the storage root: the returned relative path (or
the propagated error), the filesystem afterwards, and how many download,
preemptive-refresh and 403-refresh network calls were made. -/
structure ProcOutcome where
  result : Except ProcError String
  fs : List String
  downloadCalls : Nat
  preemptiveRefreshCalls : Nat
  refreshCalls403 : Nat
deriving DecidableEq, Repr

/-- `AttachmentProcessor.process`: build the
`{project}/IBH-INBOX/{yyyymmdd}-{sender}-{subject}` folder, generate a
collision-free filename, return early when the resolved path exists, refresh
the URL preemptively when it is expired, download (retrying once on 403), and
write the file.  `dl` and `freshUrl` are the network oracles; `nowTs` is the
wall clock; `maxSubjectLen` is `settings.MAX_SUBJECT_LENGTH`. -/
def process (maxSubjectLen : Nat) (nowTs : Int) (dl : String → DlOutcome)
    (freshUrl : Option String) (fs : List String) (att : Attachment) : ProcOutcome :=
  let project_name := pyOrDefault att.project_name "Unknown"
  let sender_email := pyOrDefault att.sender_email "unknown"
  let email_subject := pyOrDefault att.email_subject "no-subject"
  let project_folder := sanitize_folder project_name
  let email_folder := build_email_folder maxSubjectLen att.delivered_at sender_email email_subject
  let folder := project_folder ++ "/IBH-INBOX/" ++ email_folder
  let existsF : String → Bool := fun name => fs.contains (folder ++ "/" ++ name)
  let local_filename := generate_unique_filename existsF (fs.length + 1) att.original_filename
  let relative_path := folder ++ "/" ++ local_filename
  if fs.contains relative_path then
    ⟨Except.ok relative_path, fs, 0, 0, 0⟩
  else
    let expired := is_url_expired nowTs att.original_url 60
    let pre := if expired then 1 else 0
    let urlStep : Except ProcError String :=
      if expired then refresh_url freshUrl else Except.ok att.original_url
    match urlStep with
    | Except.error e => ⟨Except.error e, fs, 0, pre, 0⟩
    | Except.ok url =>
      let t := download_with_refresh dl freshUrl url
      match t.result with
      | Except.error e => ⟨Except.error e, fs, t.downloadCalls, pre, t.refreshCalls⟩
      | Except.ok _ =>
        ⟨Except.ok relative_path, relative_path :: fs, t.downloadCalls, pre, t.refreshCalls⟩

/-! ## SpoolQueue (`queue/spool_queue.py`)

The spool directory is modelled as a list of files, each a stem, a suffix
(`.evt` ready / `.retry` backing off) and an mtime; the list order stands for
the (semantically irrelevant) directory iteration order.  The `SpoolQueue`
instance additionally carries its in-memory `_current_file` and
`_current_batch_files` fields. -/

/-- The two spool file suffixes. -/
inductive Suffix
  | evt
  | retry
deriving DecidableEq, Repr

/-- One file of the spool directory. -/
structure SpoolFile where
  stem : String
  suffix : Suffix
  mtime : Nat
deriving DecidableEq, Repr

/-- A full filename: stem plus suffix. -/
abbrev FileName := String × Suffix

/-- The name of a spool file. -/
def SpoolFile.name (f : SpoolFile) : FileName := (f.stem, f.suffix)

/-- Whether a file of the given name matches `n`. -/
def nameMatches (n : FileName) (f : SpoolFile) : Bool :=
  f.stem == n.1 && f.suffix == n.2

/-- Directory lookup by full name. -/
def getName (files : List SpoolFile) (n : FileName) : Option SpoolFile :=
  files.find? (nameMatches n)

/-- Whether a file of the given full name exists. -/
def containsName (files : List SpoolFile) (n : FileName) : Bool :=
  files.any (nameMatches n)

/-- How many directory entries carry the given full name (one at most for a
real directory; the model keeps the count explicit). -/
def countName (files : List SpoolFile) (n : FileName) : Nat :=
  files.countP (nameMatches n)

/-- `unlink`/`os.replace`-source removal: every entry of that name goes. -/
def removeName (files : List SpoolFile) (n : FileName) : List SpoolFile :=
  files.filter (fun f => !(nameMatches n f))

/-- `os.utime(path, (now, now))`: set the mtime of the named file; a missing
file leaves the directory unchanged (the code swallows the error). -/
def setMtime (files : List SpoolFile) (n : FileName) (t : Nat) : List SpoolFile :=
  files.map (fun f => if nameMatches n f then { f with mtime := t } else f)

/-- Stable insertion by mtime (Python `list.sort` is stable). -/
def insertMtime (f : SpoolFile) : List SpoolFile → List SpoolFile
  | [] => [f]
  | g :: gs => if f.mtime ≤ g.mtime then f :: g :: gs else g :: insertMtime f gs

/-- `files.sort(key=lambda p: p.stat().st_mtime)`. -/
def sortByMtime : List SpoolFile → List SpoolFile
  | [] => []
  | f :: fs => insertMtime f (sortByMtime fs)

/-- `SpoolQueue._list_files`: the files with the given suffix, oldest mtime
first. -/
def list_files (files : List SpoolFile) (sfx : Suffix) : List SpoolFile :=
  sortByMtime (files.filter (fun f => f.suffix == sfx))

/-- `SpoolQueue._is_retry_eligible`: a retry file old enough to retry.  The
age is computed over `Int` since the file mtime may postdate `now`. -/
def is_retry_eligible (retrySec : Nat) (now : Nat) (f : SpoolFile) : Bool :=
  decide ((now : Int) - (f.mtime : Int) ≥ (retrySec : Int))

/-- `SpoolQueue._safe_id`: characters outside `[A-Za-z0-9._-]` become
underscores, truncated to 200. -/
def safe_id (v : String) : String :=
  String.mk ((v.toList.map (fun c =>
    if isAlnum c || c == '.' || c == '_' || c == '-' then c else '_')).take 200)

/-- The spool directory plus the queue instance's in-memory state. -/
structure SpoolState where
  files : List SpoolFile
  currentFile : Option FileName
  currentBatchFiles : List FileName
deriving DecidableEq, Repr

/-- `SpoolQueue.enqueue`: exclusive creation of `{safe_id(external_id)}.evt`;
an existing file of that name makes the call a silent no-op. -/
def enqueue (now : Nat) (externalId : String) (s : SpoolState) : SpoolState :=
  let n : FileName := (safe_id externalId, Suffix.evt)
  if containsName s.files n then s
  else { s with files := s.files ++ [⟨n.1, Suffix.evt, now⟩] }

/-- The files one `dequeue_batch` call claims, in claim order: ready `.evt`
files oldest first, then eligible `.retry` files, up to `maxItems`. -/
def claimable (retrySec now maxItems : Nat) (files : List SpoolFile) : List SpoolFile :=
  let evts := (list_files files Suffix.evt).take maxItems
  let retrs := (list_files files Suffix.retry).filter (is_retry_eligible retrySec now)
  evts ++ retrs.take (maxItems - evts.length)

/-- What `dequeue_batch` returns: the external ids of the claimed items (the
item payloads carry nothing else the worker uses) and the queue state after. -/
structure DequeueResult where
  items : List String
  state : SpoolState
deriving DecidableEq, Repr

/-- `SpoolQueue.dequeue_batch`: claim up to `maxItems` ready files.  Each
`_claim_file` call only records the file in the instance (`_current_file`
ends at the last claimed file); the batch fields are reassigned only when at
least one item was claimed; no spool file is touched. -/
def dequeue_batch (retrySec now maxItems : Nat) (s : SpoolState) : DequeueResult :=
  let claimed := claimable retrySec now maxItems s.files
  match claimed.getLast? with
  | none => { items := claimed.map SpoolFile.stem, state := s }
  | some lastF =>
    { items := claimed.map SpoolFile.stem,
      state := { s with
        currentFile := some lastF.name,
        currentBatchFiles := claimed.map SpoolFile.name } }

/-- `SpoolQueue.mark_failed` (the `item` and `error` arguments only feed the
log line): when a current file is tracked, rename it to `.retry` (a no-op
when it already is one or has vanished, `os.replace` displacing any existing
`.retry` twin), stamp the retry file's mtime to `now`, and clear
`_current_file`. -/
def mark_failed (now : Nat) (s : SpoolState) : SpoolState :=
  match s.currentFile with
  | none => s
  | some cf =>
    let retryName : FileName := (cf.1, Suffix.retry)
    let files1 :=
      if cf.2 ≠ Suffix.retry then
        match getName s.files cf with
        | some f => removeName (removeName s.files retryName) cf ++ [⟨cf.1, Suffix.retry, f.mtime⟩]
        | none => s.files
      else s.files
    { files := setMtime files1 retryName now,
      currentFile := none,
      currentBatchFiles := s.currentBatchFiles }

/-- `SpoolQueue.mark_batch_processed`: unlink (`missing_ok=True`) every file
recorded for the current batch and clear the batch fields. -/
def mark_batch_processed (s : SpoolState) : SpoolState :=
  if s.currentBatchFiles.isEmpty then s
  else
    { files := s.currentBatchFiles.foldl removeName s.files,
      currentFile := s.currentFile,
      currentBatchFiles := [] }

/-! ## Worker (`worker.py`) -/

/-- One pass of the `Worker._run` loop body on a nonidle queue: claim a batch,
process each item (`succeeds` abstracts `process_conversation` not raising),
call `mark_failed` for each item that raised, then acknowledge the batch. -/
def worker_batch_step (retrySec now maxItems : Nat) (succeeds : String → Bool)
    (s : SpoolState) : SpoolState :=
  let dq := dequeue_batch retrySec now maxItems s
  if dq.items.isEmpty then dq.state
  else
    let s2 := dq.items.foldl (fun st it => if succeeds it then st else mark_failed now st) dq.state
    mark_batch_processed s2

/-! ## Database (`db.py`)

One row per attachment id; PostgREST `PATCH` with filters is a conditional
update over all matching rows that returns the updated representation
(`Prefer: return=representation`), which the client measures by length. -/

/-- The attachment lifecycle states. -/
inductive DbStatus
  | pending
  | downloading
  | completed
  | failed
  | skipped
deriving DecidableEq, Repr

/-- One row of `email_attachment_files` (the fields the claims touch). -/
structure AttRecord where
  missive_attachment_id : String
  status : DbStatus
  retry_count : Nat
  updated_at : Nat
  error_message : Option String
  local_filename : Option String
deriving DecidableEq, Repr

/-- The table. -/
abbrev DbTable := List AttRecord

/-- PostgREST `PATCH` with a row filter: update every matching row in place
and return the updated rows. -/
def patchWhere (cond : AttRecord → Bool) (upd : AttRecord → AttRecord)
    (t : DbTable) : List AttRecord × DbTable :=
  ((t.filter cond).map upd, t.map (fun r => if cond r then upd r else r))

/-- `Database.mark_downloading`: conditional update
`status=pending → status=downloading` filtered on the attachment id, true iff
at least one row was updated. -/
def mark_downloading (now : Nat) (id : String) (t : DbTable) : Bool × DbTable :=
  let p := patchWhere
    (fun r => r.missive_attachment_id == id && r.status == DbStatus.pending)
    (fun r => { r with status := DbStatus.downloading, updated_at := now }) t
  (!p.1.isEmpty, p.2)

/-- `Database.mark_failed`: read the current `retry_count` of the first row
with the id (a missing row makes the call a warning-only no-op), add one, set
`status` to `failed` when the new count reaches `settings.MAX_RETRIES` and
back to `pending` otherwise, and patch every row with the id. -/
def db_mark_failed (maxRetries now : Nat) (id err : String) (t : DbTable) : DbTable :=
  match t.find? (fun r => r.missive_attachment_id == id) with
  | none => t
  | some r =>
    let newRetry := r.retry_count + 1
    let st := if newRetry ≥ maxRetries then DbStatus.failed else DbStatus.pending
    (patchWhere (fun q => q.missive_attachment_id == id)
      (fun q => { q with
        status := st,
        retry_count := newRetry,
        error_message := some (String.mk (err.toList.take 500)),
        updated_at := now }) t).2

/-- `Database.reset_stuck_downloads`: conditional bulk update
`downloading → pending` for rows whose `updated_at` is older than
`now - minutes*60`, returning how many rows were reset. -/
def reset_stuck_downloads (now minutes : Nat) (t : DbTable) : Nat × DbTable :=
  let cutoff := now - minutes * 60
  let p := patchWhere
    (fun r => r.status == DbStatus.downloading && decide (r.updated_at < cutoff))
    (fun r => { r with status := DbStatus.pending, updated_at := now }) t
  (p.1.length, p.2)

/-! ## Application.run (`app.py`) startup order -/

/-- The database operations `Application.run` and `_process_batch` issue, at
the granularity the startup-order claim needs. -/
inductive AppOp
  | resetStuck
  | claim (id : String)
deriving DecidableEq, Repr

/-- The claim attempts one `_process_batch` call issues: one
`mark_downloading` per fetched pending attachment id (each possibly followed
by skip/complete/fail operations, which the ordering claim does not
distinguish). -/
def process_batch_ops (ids : List String) : List AppOp :=
  ids.map AppOp.claim

/-- The operation sequence of `Application.run`: `reset_stuck_downloads()`
runs once, before the main loop, whose iterations each run one
`_process_batch`. -/
def app_run_ops (batches : List (List String)) : List AppOp :=
  AppOp.resetStuck :: (batches.map process_batch_ops).flatten

/-! ## Claim C1 — idempotent skip on reprocessing -/

/-- The attachment of the C1 scenario: ordinary fields, an unexpired signed
URL, filename `a.pdf`. -/
def attC1 : Attachment :=
  ⟨"att1", "m1", "a.pdf", "http://files/x?Expires=9999", some "P", none,
    some "s@x.com", some "Hi"⟩

/-- The download oracle of the C1 scenario: every download succeeds. -/
def dlC1 : String → DlOutcome := fun _ => DlOutcome.ok "data"

/-- Claim C1: processing the same attachment a second time, when the first
call's destination file already exists, is NOT a no-network no-op on this
code: `_generate_unique_filename` always resolves to a name that does not
exist, so the `file_path.exists()` skip never fires; the second call performs
a download and returns a different relative path (`a_1.pdf`). -/
theorem C1_reprocess_downloads_again :
    (process 50 0 dlC1 (some "fresh") [] attC1).result
        = Except.ok "P/IBH-INBOX/00000000-s@x.com-Hi/a.pdf" ∧
    (process 50 0 dlC1 (some "fresh") [] attC1).fs
        = ["P/IBH-INBOX/00000000-s@x.com-Hi/a.pdf"] ∧
    (process 50 0 dlC1 (some "fresh")
        ["P/IBH-INBOX/00000000-s@x.com-Hi/a.pdf"] attC1).result
        = Except.ok "P/IBH-INBOX/00000000-s@x.com-Hi/a_1.pdf" ∧
    (process 50 0 dlC1 (some "fresh")
        ["P/IBH-INBOX/00000000-s@x.com-Hi/a.pdf"] attC1).downloadCalls = 1 := by
  refine ⟨?_, ?_, ?_, ?_⟩ <;> decide

/-! ## Claim C2 — batch acknowledgment must not drop failed entries -/

/-- Claim C2: in a claimed batch `a`, `b` where processing `a` raises and `b`
succeeds, the worker loop body leaves the spool holding only `b.retry`: the
failed entry `a` has been deleted by the batch acknowledgment (and the
successful entry `b` was renamed for retry), so the queue does drop a failed
item. -/
theorem C2_batch_ack_drops_failed_entry :
    (dequeue_batch 60 10 5 ⟨[⟨"a", Suffix.evt, 0⟩, ⟨"b", Suffix.evt, 1⟩], none, []⟩).items
        = ["a", "b"] ∧
    (worker_batch_step 60 10 5 (fun id => id == "b")
        ⟨[⟨"a", Suffix.evt, 0⟩, ⟨"b", Suffix.evt, 1⟩], none, []⟩).files
        = [⟨"b", Suffix.retry, 10⟩] := by
  refine ⟨?_, ?_⟩ <;> decide

/-! ## Claim C3 — dequeue_batch does not durably claim -/

/-- Claim C3 counterexample: with one ready entry `x` in the spool, an
immediately repeated `dequeue_batch` (no mark in between) returns the same
entry again — the claim's promised non-redelivery is false. -/
theorem C3_counterexample_redelivery :
    (dequeue_batch 60 5 10 ⟨[⟨"x", Suffix.evt, 0⟩], none, []⟩).items = ["x"] ∧
    (dequeue_batch 60 5 10
        (dequeue_batch 60 5 10 ⟨[⟨"x", Suffix.evt, 0⟩], none, []⟩).state).items = ["x"] := by
  refine ⟨?_, ?_⟩ <;> decide

/-- `dequeue_batch` never modifies the spool directory. -/
theorem dequeue_batch_state_files (r n m : Nat) (s : SpoolState) :
    (dequeue_batch r n m s).state.files = s.files := by
  simp only [dequeue_batch]
  split <;> rfl

/-- The items `dequeue_batch` returns are a function of the spool directory
alone. -/
theorem dequeue_batch_items_eq (r n m : Nat) (s : SpoolState) :
    (dequeue_batch r n m s).items = (claimable r n m s.files).map SpoolFile.stem := by
  simp only [dequeue_batch]
  split <;> rfl

/-- Claim C3 (amended): `dequeue_batch` records the returned entries only in
the queue instance's in-memory fields and leaves every spool file unchanged,
so an immediately following `dequeue_batch` call returns the same entries
again. -/
theorem C3_claim_is_in_memory_only (r n m : Nat) (s : SpoolState) :
    (dequeue_batch r n m s).state.files = s.files ∧
    (dequeue_batch r n m ((dequeue_batch r n m s).state)).items
        = (dequeue_batch r n m s).items := by
  refine ⟨dequeue_batch_state_files r n m s, ?_⟩
  rw [dequeue_batch_items_eq, dequeue_batch_items_eq, dequeue_batch_state_files]

/-! ## Claim C4 — the claim transition is conditional and exclusive -/

/-- A claim update succeeds exactly when some row with the id is `pending`. -/
theorem mark_downloading_true_iff (now : Nat) (id : String) (t : DbTable) :
    (mark_downloading now id t).1 = true ↔
      ∃ r ∈ t, r.missive_attachment_id = id ∧ r.status = DbStatus.pending := by
  simp only [mark_downloading, patchWhere, Bool.not_eq_true', List.isEmpty_eq_false,
    ne_eq, List.map_eq_nil_iff, List.filter_eq_nil_iff]
  push_neg
  constructor
  · rintro ⟨r, hr, hc⟩
    simp only [Bool.and_eq_true, beq_iff_eq] at hc
    exact ⟨r, hr, hc⟩
  · rintro ⟨r, hr, h1, h2⟩
    exact ⟨r, hr, by simp [h1, h2]⟩

/-- After a claim update, no row with the id remains `pending`. -/
theorem mark_downloading_no_pending (now : Nat) (id : String) (t : DbTable) :
    ∀ q ∈ (mark_downloading now id t).2,
      ¬(q.missive_attachment_id = id ∧ q.status = DbStatus.pending) := by
  intro q hq
  simp only [mark_downloading, patchWhere, List.mem_map] at hq
  rcases hq with ⟨r, hr, rfl⟩
  by_cases hc : (r.missive_attachment_id == id && r.status == DbStatus.pending) = true
  · rw [if_pos hc]
    rintro ⟨-, h2⟩
    exact absurd h2 (by simp)
  · rw [if_neg hc]
    rintro ⟨h1, h2⟩
    exact hc (by simp [h1, h2])

/-- Claim C4: `mark_downloading` succeeds exactly when the record is
currently `pending` (the conditional `pending → downloading` transition), and
after a claim — successful or not — any further claim attempt on the same id
returns false rather than raising, so at most one of any sequence of claim
attempts succeeds. -/
theorem C4_claim_conditional_and_exclusive (now now2 : Nat) (id : String) (t : DbTable) :
    ((mark_downloading now id t).1 = true ↔
      ∃ r ∈ t, r.missive_attachment_id = id ∧ r.status = DbStatus.pending) ∧
    (mark_downloading now2 id (mark_downloading now id t).2).1 = false := by
  refine ⟨mark_downloading_true_iff now id t, ?_⟩
  rw [← Bool.not_eq_true, mark_downloading_true_iff]
  rintro ⟨r, hr, h1, h2⟩
  exact mark_downloading_no_pending now id t r hr ⟨h1, h2⟩

/-- Claim C4 witness: on a one-row pending table the first claim succeeds and
the repeated claim returns false. -/
theorem C4_witness :
    (mark_downloading 5 "a1" [⟨"a1", DbStatus.pending, 0, 0, none, none⟩]).1 = true ∧
    (mark_downloading 6 "a1"
      (mark_downloading 5 "a1" [⟨"a1", DbStatus.pending, 0, 0, none, none⟩]).2).1 = false := by
  refine ⟨?_, (C4_claim_conditional_and_exclusive 5 6 "a1" _).2⟩
  exact (C4_claim_conditional_and_exclusive 5 6 "a1" _).1.mpr
    ⟨⟨"a1", DbStatus.pending, 0, 0, none, none⟩, by simp, rfl, rfl⟩

/-! ## Claim C6 — failure increments retry_count and recomputes status -/

/-- Claim C6: one `Database.mark_failed` call on a present record raises its
`retry_count` by exactly one, and the resulting status is `failed` precisely
when the new count has reached `max_retries`, reverting to `pending`
otherwise. -/
theorem C6_fail_increments_and_recomputes (maxRetries now : Nat) (id err : String)
    (t : DbTable) (r : AttRecord)
    (hfind : t.find? (fun q => q.missive_attachment_id == id) = some r) :
    ∀ q ∈ db_mark_failed maxRetries now id err t, q.missive_attachment_id = id →
      q.retry_count = r.retry_count + 1 ∧
      (q.status = DbStatus.failed ↔ maxRetries ≤ r.retry_count + 1) ∧
      (¬ maxRetries ≤ r.retry_count + 1 → q.status = DbStatus.pending) := by
  intro q hq hid
  simp only [db_mark_failed, hfind, patchWhere, List.mem_map] at hq
  rcases hq with ⟨p, hp, rfl⟩
  by_cases hc : (p.missive_attachment_id == id) = true
  · rw [if_pos hc]
    refine ⟨rfl, ?_, ?_⟩
    · by_cases hm : maxRetries ≤ r.retry_count + 1
      · simp [if_pos hm, hm]
      · simp only [ge_iff_le, if_neg hm]
        constructor
        · intro h
          exact absurd h (by simp)
        · intro h
          exact absurd h hm
    · intro hm
      simp only [ge_iff_le, if_neg hm]
  · rw [if_neg hc] at hid ⊢
    exact absurd (by simp [hid]) hc

/-- Claim C6 witness: with `max_retries = 3`, failing a present record with
`retry_count = 1` yields the updated row with `retry_count = 1 + 1 = 2` and
status `pending` (not `failed`, since `3 ≤ 2` is false). -/
theorem C6_witness :
    ((⟨"a1", DbStatus.pending, 2, 9, some "boom", none⟩ : AttRecord)
        ∈ db_mark_failed 3 9 "a1" "boom" [⟨"a1", DbStatus.downloading, 1, 4, none, none⟩]) ∧
    (⟨"a1", DbStatus.pending, 2, 9, some "boom", none⟩ : AttRecord).retry_count = 1 + 1 ∧
    (⟨"a1", DbStatus.pending, 2, 9, some "boom", none⟩ : AttRecord).status = DbStatus.pending := by
  have h := C6_fail_increments_and_recomputes 3 9 "a1" "boom"
    [⟨"a1", DbStatus.downloading, 1, 4, none, none⟩]
    ⟨"a1", DbStatus.downloading, 1, 4, none, none⟩ (by decide)
  have hmem : (⟨"a1", DbStatus.pending, 2, 9, some "boom", none⟩ : AttRecord)
      ∈ db_mark_failed 3 9 "a1" "boom" [⟨"a1", DbStatus.downloading, 1, 4, none, none⟩] := by
    decide
  have hq := h _ hmem rfl
  exact ⟨hmem, hq.1, hq.2.2 (by decide)⟩

/-! ## Claim C9 — reclaim sweep semantics and startup order -/

/-- Claim C9: `reset_stuck_downloads` updates exactly the rows that are
`downloading` with an `updated_at` older than the cutoff — those become
`pending` (stamped with `now`) and are claimable again, all other rows pass
through unchanged — and `Application.run` issues the sweep as its first
database operation, before any claim of the main loop. -/
theorem C9_reset_stuck_semantics_and_order (now now2 minutes : Nat) (t : DbTable)
    (batches : List (List String)) :
    (∀ r ∈ t, r.status = DbStatus.downloading → r.updated_at < now - minutes * 60 →
      ({ r with status := DbStatus.pending, updated_at := now } : AttRecord)
          ∈ (reset_stuck_downloads now minutes t).2 ∧
      (mark_downloading now2 r.missive_attachment_id
          (reset_stuck_downloads now minutes t).2).1 = true) ∧
    (∀ r ∈ t, ¬(r.status = DbStatus.downloading ∧ r.updated_at < now - minutes * 60) →
      r ∈ (reset_stuck_downloads now minutes t).2) ∧
    (app_run_ops batches).head? = some AppOp.resetStuck ∧
    (∀ op ∈ (batches.map process_batch_ops).flatten, op ≠ AppOp.resetStuck) := by
  have hcond : ∀ r : AttRecord,
      (r.status == DbStatus.downloading && decide (r.updated_at < now - minutes * 60)) = true ↔
      (r.status = DbStatus.downloading ∧ r.updated_at < now - minutes * 60) := by
    intro r
    simp
  refine ⟨?_, ?_, rfl, ?_⟩
  · intro r hr h1 h2
    have hmem : ({ r with status := DbStatus.pending, updated_at := now } : AttRecord)
        ∈ (reset_stuck_downloads now minutes t).2 := by
      simp only [reset_stuck_downloads, patchWhere, List.mem_map]
      refine ⟨r, hr, ?_⟩
      rw [if_pos ((hcond r).mpr ⟨h1, h2⟩)]
    refine ⟨hmem, ?_⟩
    rw [mark_downloading_true_iff]
    exact ⟨_, hmem, rfl, rfl⟩
  · intro r hr hno
    simp only [reset_stuck_downloads, patchWhere, List.mem_map]
    refine ⟨r, hr, ?_⟩
    rw [if_neg (fun hc => hno ((hcond r).mp hc))]
  · intro op hop
    simp only [List.mem_flatten, List.mem_map] at hop
    rcases hop with ⟨ops, ⟨ids, -, rfl⟩, hin⟩
    simp only [process_batch_ops, List.mem_map] at hin
    rcases hin with ⟨i, -, rfl⟩
    exact fun h => AppOp.noConfusion h

/-- Claim C9 witness: a table with one stuck `downloading` row (updated at 0,
cutoff `100 - 60`) and one fresh row; the sweep resets the stuck row, which
is then claimable, and leaves the fresh row unchanged. -/
theorem C9_witness :
    (⟨"s1", DbStatus.pending, 0, 100, none, none⟩ : AttRecord)
        ∈ (reset_stuck_downloads 100 1
            [⟨"s1", DbStatus.downloading, 0, 0, none, none⟩,
             ⟨"f1", DbStatus.downloading, 0, 99, none, none⟩]).2 ∧
    (mark_downloading 101 "s1"
        (reset_stuck_downloads 100 1
            [⟨"s1", DbStatus.downloading, 0, 0, none, none⟩,
             ⟨"f1", DbStatus.downloading, 0, 99, none, none⟩]).2).1 = true ∧
    (⟨"f1", DbStatus.downloading, 0, 99, none, none⟩ : AttRecord)
        ∈ (reset_stuck_downloads 100 1
            [⟨"s1", DbStatus.downloading, 0, 0, none, none⟩,
             ⟨"f1", DbStatus.downloading, 0, 99, none, none⟩]).2 ∧
    (app_run_ops [["s1"]]).head? = some AppOp.resetStuck := by
  have h := C9_reset_stuck_semantics_and_order 100 101 1
    [⟨"s1", DbStatus.downloading, 0, 0, none, none⟩,
     ⟨"f1", DbStatus.downloading, 0, 99, none, none⟩] [["s1"]]
  have hs := h.1 ⟨"s1", DbStatus.downloading, 0, 0, none, none⟩ (by simp) rfl (by decide)
  have hf := h.2.1 ⟨"f1", DbStatus.downloading, 0, 99, none, none⟩ (by simp) (by decide)
  exact ⟨hs.1, hs.2, hf, h.2.2.1⟩

/-! ## Claim C8 — exactly one refresh and one retry on 403 -/

/-- Claim C8: when the first download of a URL comes back as an HTTP 403,
`_download_with_refresh` requests exactly one fresh URL; with a fresh URL in
hand it downloads exactly once more, and a failure of that retry (HTTP error
or network error) propagates as the processing error with no further refresh;
when no fresh URL can be obtained, the refresh failure itself propagates. -/
theorem C8_refresh_on_403_once (dl : String → DlOutcome) (freshUrl : Option String)
    (url : String) (h403 : dl url = DlOutcome.httpError 403) :
    (download_with_refresh dl freshUrl url).refreshCalls = 1 ∧
    (∀ fresh, freshUrl = some fresh →
      (download_with_refresh dl freshUrl url).downloadCalls = 2 ∧
      (∀ c, dl fresh = DlOutcome.ok c →
        (download_with_refresh dl freshUrl url).result = Except.ok (c, true)) ∧
      (∀ st, dl fresh = DlOutcome.httpError st →
        (download_with_refresh dl freshUrl url).result = Except.error (ProcError.http st)) ∧
      (dl fresh = DlOutcome.netError →
        (download_with_refresh dl freshUrl url).result = Except.error ProcError.net)) ∧
    (freshUrl = none →
      (download_with_refresh dl freshUrl url).result = Except.error ProcError.refreshFailed ∧
      (download_with_refresh dl freshUrl url).downloadCalls = 1) := by
  refine ⟨?_, ?_, ?_⟩
  · cases hf : freshUrl with
    | none => simp [download_with_refresh, h403]
    | some fu => cases hdl : dl fu <;> simp [download_with_refresh, h403, hdl]
  · rintro fresh rfl
    cases hdl : dl fresh with
    | ok c =>
      refine ⟨by simp [download_with_refresh, h403, hdl], ?_, ?_, ?_⟩
      · intro c2 hc2
        cases hc2
        simp [download_with_refresh, h403, hdl]
      · intro st hst
        exact DlOutcome.noConfusion hst
      · intro hn
        exact DlOutcome.noConfusion hn
    | httpError st =>
      refine ⟨by simp [download_with_refresh, h403, hdl], ?_, ?_, ?_⟩
      · intro c2 hc2
        exact DlOutcome.noConfusion hc2
      · intro st2 hst
        cases hst
        simp [download_with_refresh, h403, hdl]
      · intro hn
        exact DlOutcome.noConfusion hn
    | netError =>
      refine ⟨by simp [download_with_refresh, h403, hdl], ?_, ?_, ?_⟩
      · intro c2 hc2
        exact DlOutcome.noConfusion hc2
      · intro st2 hst
        exact DlOutcome.noConfusion hst
      · intro _
        simp [download_with_refresh, h403, hdl]
  · rintro rfl
    refine ⟨by simp [download_with_refresh, h403], by simp [download_with_refresh, h403]⟩

/-- Claim C8 witness: a URL that answers 403 while the refreshed URL also
answers 403 — one refresh, two downloads, and the second 403 propagates. -/
theorem C8_witness :
    (download_with_refresh
      (fun u => if u == "old" then DlOutcome.httpError 403 else DlOutcome.httpError 403)
      (some "new") "old").refreshCalls = 1 ∧
    (download_with_refresh
      (fun u => if u == "old" then DlOutcome.httpError 403 else DlOutcome.httpError 403)
      (some "new") "old").downloadCalls = 2 ∧
    (download_with_refresh
      (fun u => if u == "old" then DlOutcome.httpError 403 else DlOutcome.httpError 403)
      (some "new") "old").result = Except.error (ProcError.http 403) := by
  have h := C8_refresh_on_403_once
    (fun u => if u == "old" then DlOutcome.httpError 403 else DlOutcome.httpError 403)
    (some "new") "old" (by decide)
  have h2 := h.2.1 "new" rfl
  exact ⟨h.1, h2.1, h2.2.2.1 403 (by decide)⟩

/-! ## Claim C10 — the expiry check is total on malformed URLs -/

/-- Claim C10: a URL whose query has no `Expires` parameter, or whose
`Expires` value is not a parsable integer, is never reported expired (the
check returns false instead of raising), and `process` therefore performs no
preemptive URL refresh for it — only the 403 path could refresh it. -/
theorem C10_expiry_check_total (nowTs : Int) (url : String)
    (h : getExpiresParam url = none ∨
         ∃ e, getExpiresParam url = some e ∧ pyInt e = none) :
    is_url_expired nowTs url 60 = false ∧
    (∀ maxLen dl freshUrl fs att, att.original_url = url →
      (process maxLen nowTs dl freshUrl fs att).preemptiveRefreshCalls = 0) := by
  have hexp : is_url_expired nowTs url 60 = false := by
    rcases h with h | ⟨e, he, hpy⟩
    · simp [is_url_expired, h]
    · simp [is_url_expired, he, hpy]
  refine ⟨hexp, ?_⟩
  rintro maxLen dl freshUrl fs att rfl
  simp only [process, hexp]
  split
  · rfl
  · simp only [Bool.false_eq_true, if_false, reduceIte]
    split <;> rfl

/-- Claim C10 witness: a URL without an `Expires` parameter and one with a
non-numeric `Expires` are both reported unexpired. -/
theorem C10_witness :
    is_url_expired 1000 "http://files/x?Token=1" 60 = false ∧
    is_url_expired 1000 "http://files/x?Expires=abc" 60 = false := by
  refine ⟨(C10_expiry_check_total 1000 "http://files/x?Token=1" (Or.inl (by decide))).1,
    (C10_expiry_check_total 1000 "http://files/x?Expires=abc"
      (Or.inr ⟨"abc", by decide, by decide⟩)).1⟩

/-! ## Claim C5 — mark_failed acts on the queue's current entry -/

/-- Claim C5 counterexample: after the batch `a`, `b` is claimed, the worker
calls `mark_failed` for the failed item `a`; the code instead converts the
queue's current file — `b`'s entry — and leaves `a`'s own `.evt` entry
untouched, so the claimed per-item conversion is false. -/
theorem C5_counterexample_wrong_entry :
    (dequeue_batch 60 5 5 ⟨[⟨"a", Suffix.evt, 0⟩, ⟨"b", Suffix.evt, 1⟩], none, []⟩).items
        = ["a", "b"] ∧
    (mark_failed 10
        (dequeue_batch 60 5 5 ⟨[⟨"a", Suffix.evt, 0⟩, ⟨"b", Suffix.evt, 1⟩], none, []⟩).state).files
        = [⟨"a", Suffix.evt, 0⟩, ⟨"b", Suffix.retry, 10⟩] := by
  refine ⟨?_, ?_⟩ <;> decide

/-- Membership is preserved by mtime-ordered insertion. -/
theorem mem_insertMtime (x f : SpoolFile) (l : List SpoolFile) :
    x ∈ insertMtime f l ↔ x = f ∨ x ∈ l := by
  induction l with
  | nil => simp [insertMtime]
  | cons g gs ih =>
    simp only [insertMtime]
    split
    · simp [List.mem_cons]
    · simp only [List.mem_cons, ih]
      tauto

/-- Membership is preserved by the stable mtime sort. -/
theorem mem_sortByMtime (x : SpoolFile) (l : List SpoolFile) :
    x ∈ sortByMtime l ↔ x ∈ l := by
  induction l with
  | nil => simp [sortByMtime]
  | cons g gs ih => simp [sortByMtime, mem_insertMtime, ih]

/-- Every file `dequeue_batch` would claim is a spool file that is ready
(`.evt`) or a retry-eligible `.retry` file. -/
theorem mem_claimable (r n m : Nat) (files : List SpoolFile) (g : SpoolFile)
    (hg : g ∈ claimable r n m files) :
    g ∈ files ∧
      (g.suffix = Suffix.evt ∨ (g.suffix = Suffix.retry ∧ is_retry_eligible r n g = true)) := by
  simp only [claimable, List.mem_append] at hg
  rcases hg with hg | hg
  · replace hg := List.mem_of_mem_take hg
    simp only [list_files, mem_sortByMtime] at hg
    have hm := List.mem_filter.mp hg
    exact ⟨hm.1, Or.inl (by simpa using hm.2)⟩
  · replace hg := List.mem_of_mem_take hg
    obtain ⟨hg1, helig⟩ := List.mem_filter.mp hg
    simp only [list_files, mem_sortByMtime] at hg1
    have hm := List.mem_filter.mp hg1
    exact ⟨hm.1, Or.inr ⟨by simpa using hm.2, helig⟩⟩

/-- The mtime update of `setMtime` never changes which names a file matches. -/
theorem nameMatches_setMtime_apply (n n2 : FileName) (t : Nat) (x : SpoolFile) :
    nameMatches n2 (if nameMatches n x then { x with mtime := t } else x) = nameMatches n2 x := by
  by_cases h : nameMatches n x = true
  · rw [if_pos h]
    rfl
  · rw [if_neg h]

/-- Claim C5 (amended): `mark_failed` converts the queue's currently tracked
entry — the last file claimed by the most recent dequeue, not necessarily the
entry of the item passed in — to the `.retry` encoding stamped with the
current time; it deletes no other entry, and the converted entry is not
returned by `dequeue_batch` again until `retry_backoff_seconds` have elapsed
since the stamp. -/
theorem C5_mark_failed_converts_current_entry (retrySec now t maxItems : Nat)
    (s : SpoolState) (stem : String)
    (hcf : s.currentFile = some (stem, Suffix.evt))
    (hmem : containsName s.files (stem, Suffix.evt) = true) :
    ((⟨stem, Suffix.retry, now⟩ : SpoolFile) ∈ (mark_failed now s).files) ∧
    containsName (mark_failed now s).files (stem, Suffix.evt) = false ∧
    (∀ f ∈ s.files, f.stem ≠ stem → f ∈ (mark_failed now s).files) ∧
    (now ≤ t → t < now + retrySec →
      stem ∉ (dequeue_batch retrySec t maxItems (mark_failed now s)).items) := by
  obtain ⟨f0, hf0⟩ : ∃ f, getName s.files (stem, Suffix.evt) = some f := by
    have h2 : (s.files.find? (nameMatches (stem, Suffix.evt))).isSome = true := by
      rw [List.find?_isSome]
      simpa [containsName] using hmem
    exact Option.isSome_iff_exists.mp h2
  have hmf : (mark_failed now s).files
      = setMtime (removeName (removeName s.files (stem, Suffix.retry)) (stem, Suffix.evt)
          ++ [⟨stem, Suffix.retry, f0.mtime⟩]) (stem, Suffix.retry) now := by
    simp [mark_failed, hcf, hf0]
  have h1 : (⟨stem, Suffix.retry, now⟩ : SpoolFile) ∈ (mark_failed now s).files := by
    rw [hmf]
    have e0mem : (⟨stem, Suffix.retry, f0.mtime⟩ : SpoolFile)
        ∈ removeName (removeName s.files (stem, Suffix.retry)) (stem, Suffix.evt)
            ++ [⟨stem, Suffix.retry, f0.mtime⟩] :=
      List.mem_append_right _ (List.mem_singleton.mpr rfl)
    have hφ := List.mem_map_of_mem
      (fun f => if nameMatches (stem, Suffix.retry) f then { f with mtime := now } else f) e0mem
    simp only [nameMatches, beq_self_eq_true, Bool.and_self, if_true] at hφ
    exact hφ
  have h2 : containsName (mark_failed now s).files (stem, Suffix.evt) = false := by
    rw [hmf]
    apply List.any_eq_false.mpr
    intro g hg
    simp only [setMtime, List.mem_map] at hg
    obtain ⟨x, hx, rfl⟩ := hg
    rw [nameMatches_setMtime_apply]
    rcases List.mem_append.mp hx with hx1 | hx1
    · have hfl := List.mem_filter.mp hx1
      simpa [removeName] using hfl.2
    · have hx2 := List.mem_singleton.mp hx1
      subst hx2
      simp [nameMatches]
  have h3 : ∀ f ∈ s.files, f.stem ≠ stem → f ∈ (mark_failed now s).files := by
    intro f hf hstem
    rw [hmf]
    have hbeq : (f.stem == stem) = false := beq_eq_false_iff_ne.mpr hstem
    have hname : ∀ sfx : Suffix, nameMatches (stem, sfx) f = false := fun sfx => by
      simp [nameMatches, hbeq]
    have hmem1 : f ∈ removeName (removeName s.files (stem, Suffix.retry)) (stem, Suffix.evt) := by
      simp only [removeName, List.mem_filter]
      exact ⟨⟨hf, by simp [hname]⟩, by simp [hname]⟩
    have hmem2 : f ∈ (removeName (removeName s.files (stem, Suffix.retry)) (stem, Suffix.evt)
        ++ [⟨stem, Suffix.retry, f0.mtime⟩]) := List.mem_append_left _ hmem1
    have hφ := List.mem_map_of_mem
      (fun g => if nameMatches (stem, Suffix.retry) g then { g with mtime := now } else g) hmem2
    simpa [setMtime, hname Suffix.retry] using hφ
  refine ⟨h1, h2, h3, ?_⟩
  intro ht1 ht2 hin
  rw [dequeue_batch_items_eq] at hin
  rcases List.mem_map.mp hin with ⟨g, hgcl, hgstem⟩
  obtain ⟨hgmem, hgcase⟩ := mem_claimable _ _ _ _ _ hgcl
  rcases hgcase with hevt | ⟨hretry, helig⟩
  · have hgname : nameMatches (stem, Suffix.evt) g = true := by
      simp [nameMatches, hgstem, hevt]
    have hall := List.any_eq_false.mp
      (show ((mark_failed now s).files.any (nameMatches (stem, Suffix.evt))) = false from h2)
    exact absurd hgname (by simpa using hall g hgmem)
  · have hgname : nameMatches (stem, Suffix.retry) g = true := by
      simp [nameMatches, hgstem, hretry]
    have hgm : g.mtime = now := by
      rw [hmf] at hgmem
      simp only [setMtime, List.mem_map] at hgmem
      obtain ⟨x, hx, hxg⟩ := hgmem
      have hnx : nameMatches (stem, Suffix.retry) x = true := by
        rw [← nameMatches_setMtime_apply (stem, Suffix.retry) (stem, Suffix.retry) now x, hxg]
        exact hgname
      rw [← hxg, if_pos hnx]
    rw [is_retry_eligible, hgm] at helig
    have hge : ((t : Int)) - (now : Int) ≥ (retrySec : Int) := of_decide_eq_true helig
    omega

/-- Claim C5 witness: a single-entry queue whose entry `w` is the current
file; failing it converts `w.evt` to `w.retry` stamped 5, and a dequeue at
time 6 (backoff 60) does not return it. -/
theorem C5_witness :
    ((⟨"w", Suffix.retry, 5⟩ : SpoolFile)
        ∈ (mark_failed 5 ⟨[⟨"w", Suffix.evt, 0⟩], some ("w", Suffix.evt),
            [("w", Suffix.evt)]⟩).files) ∧
    containsName (mark_failed 5 ⟨[⟨"w", Suffix.evt, 0⟩], some ("w", Suffix.evt),
        [("w", Suffix.evt)]⟩).files ("w", Suffix.evt) = false ∧
    "w" ∉ (dequeue_batch 60 6 3 (mark_failed 5 ⟨[⟨"w", Suffix.evt, 0⟩],
        some ("w", Suffix.evt), [("w", Suffix.evt)]⟩)).items := by
  have h := C5_mark_failed_converts_current_entry 60 5 6 3
    ⟨[⟨"w", Suffix.evt, 0⟩], some ("w", Suffix.evt), [("w", Suffix.evt)]⟩ "w" rfl (by decide)
  exact ⟨h.1, h.2.1, h.2.2.2 (by decide) (by decide)⟩

/-! ## Claim C7 — idempotent enqueue -/

/-- Claim C7: re-enqueuing an `external_id` while its `.evt` entry — the
encoding of a live pending/claimed item — still exists is a silent no-op (the
exclusive create fails), and an enqueue into a spool with no such entry
leaves exactly one live `.evt` entry for that id. -/
theorem C7_enqueue_idempotent (t1 t2 : Nat) (eid : String) (s : SpoolState) :
    enqueue t2 eid (enqueue t1 eid s) = enqueue t1 eid s ∧
    (countName s.files (safe_id eid, Suffix.evt) = 0 →
      countName (enqueue t1 eid s).files (safe_id eid, Suffix.evt) = 1) := by
  constructor
  · by_cases hc : containsName s.files (safe_id eid, Suffix.evt) = true
    · simp [enqueue, hc]
    · have hs1 : enqueue t1 eid s
          = { s with files := s.files ++ [⟨safe_id eid, Suffix.evt, t1⟩] } := by
        simp only [enqueue]
        rw [if_neg hc]
      have hc1 : containsName (s.files ++ [⟨safe_id eid, Suffix.evt, t1⟩])
          (safe_id eid, Suffix.evt) = true := by
        simp [containsName, List.any_append, nameMatches]
      rw [hs1]
      simp only [enqueue]
      rw [if_pos hc1]
  · intro hzero
    have hc : containsName s.files (safe_id eid, Suffix.evt) = false := by
      rw [← Bool.not_eq_true]
      intro hany
      rcases List.any_eq_true.mp (show s.files.any
          (nameMatches (safe_id eid, Suffix.evt)) = true from hany) with ⟨x, hx, hpx⟩
      have := List.countP_eq_zero.mp hzero x hx
      exact this hpx
    have hs1 : enqueue t1 eid s
        = { s with files := s.files ++ [⟨safe_id eid, Suffix.evt, t1⟩] } := by
      simp only [enqueue]
      rw [if_neg (by rw [hc]; exact Bool.false_ne_true)]
    rw [hs1]
    show (s.files ++ [(⟨safe_id eid, Suffix.evt, t1⟩ : SpoolFile)]).countP
        (nameMatches (safe_id eid, Suffix.evt)) = 1
    rw [List.countP_append,
      show List.countP (nameMatches (safe_id eid, Suffix.evt)) s.files = 0 from hzero]
    simp [List.countP_cons, nameMatches]

/-- Claim C7 witness: enqueuing `conv1` into an empty spool yields one live
entry, and re-enqueuing it is a no-op. -/
theorem C7_witness :
    enqueue 8 "conv1" (enqueue 3 "conv1" ⟨[], none, []⟩)
        = enqueue 3 "conv1" (⟨[], none, []⟩ : SpoolState) ∧
    countName (enqueue 3 "conv1" (⟨[], none, []⟩ : SpoolState)).files
        (safe_id "conv1", Suffix.evt) = 1 := by
  have h := C7_enqueue_idempotent 3 8 "conv1" ⟨[], none, []⟩
  exact ⟨h.1, h.2 (by decide)⟩

end MAD
